import Mathlib

set_option maxHeartbeats 1000000

/-!
Shallow embedding of `src/db.rs` of `how_long_until_next_teacon_opens`.

The store (`Database`) owns two sled trees:
  * `week_tree` with the single key `current_week`, holding a bincode-encoded
    `WeekData { week_count: u64, last_click_time: Option<DateTime<Utc>> }`;
  * `click_tree` with one key `"ip:{ip}"` per identity, holding the RFC 3339
    rendering of the `DateTime<Utc>` of the last accepted visit.

Modelling decisions, each justified against the source:
  * `DateTime<Utc>` is modelled by its whole-second Unix timestamp (`Int`).
    The claims only compare UTC calendar dates and timestamp equality, and
    `date_naive` equality of two instants is equality of their floor-div-86400
    day numbers, independent of the sub-second part.
  * Stored bytes are modelled by their parse outcome: a `week_tree` value is
    either a valid encoding of a `WeekData` or `bad` (bytes on which
    `bincode::deserialize` fails); a `click_tree` value is either a valid
    RFC 3339 rendering of an instant, `badUtf8` (bytes rejected by
    `str::from_utf8`), or `badFormat` (UTF-8 rejected by
    `DateTime::parse_from_rfc3339`).
  * `week_count += 1` is u64 arithmetic: release-profile Rust wraps on
    overflow, so the increment is `(n + 1) % 2^64`.
  * The one storage call whose failure a claim is about — the
    non-transactional `click_tree.insert` on line 134, performed after the
    counter transaction commits — is given an explicit failure switch
    `insertOk`. The `?` on that line propagates the error. Other sled I/O
    failure points (gets, the transaction storage layer) are not modelled;
    no claim turns on them.
  * Each async operation is the pure state transformer of its
    `spawn_blocking` closure; operations return their `Result` together with
    the post state, so error paths keep the (possibly already mutated) store.
-/

/-- A `DateTime<Utc>` instant, as whole seconds since the Unix epoch. -/
abbrev Time := Int

/-- 2^64, the modulus of Rust `u64` arithmetic. -/
def U64 : Nat := 18446744073709551616

/-- `week_count += 1` on a `u64` (release profile wraps on overflow). -/
def u64succ (n : Nat) : Nat := (n + 1) % U64

/-- chrono `date_naive` equality classes: the UTC calendar date of an instant,
as its day number (floor of seconds / 86400) since 1970-01-01. Two instants
have the same UTC calendar date iff they have the same day number, and the
following calendar date is the following day number. -/
def dateNaive (t : Time) : Int := Int.fdiv t 86400

/-- The `DbError` enum of db.rs (payloads dropped; only the variant matters).
Note that a bincode failure inside a transaction closure is wrapped into
`sled::Error::Unsupported` and surfaces as `DbError::Sled`, not `Bincode`. -/
inductive DbError
  | sled
  | bincode
  | io
  | join
  | utf8
  | dateParse
  deriving DecidableEq

/-- The stored record of the `weeks` tree (struct `WeekData` in db.rs). -/
structure WeekData where
  week_count : Nat
  last_click_time : Option Time
  deriving DecidableEq

/-- A `week_tree` value, by its `bincode::deserialize::<WeekData>` outcome. -/
inductive WeekVal
  | ok (data : WeekData)
  | bad
  deriving DecidableEq

/-- A `click_tree` value, by its `str::from_utf8` and
`DateTime::parse_from_rfc3339` outcome. `ok t` is the RFC 3339 rendering
written by `to_rfc3339` for the instant `t`. -/
inductive ClickVal
  | ok (t : Time)
  | badUtf8
  | badFormat
  deriving DecidableEq

/-- The persistent state of the store: the single `current_week` entry of the
`weeks` tree and the key-value contents of the `clicks` tree. -/
structure DbState where
  week : Option WeekVal
  clicks : String → Option ClickVal

/-- The empty store (fresh sled database: both trees empty). -/
def initSt : DbState := { week := none, clicks := fun _ => none }

/-- The `click_tree` key for an identity: `format!("ip:{}", ip)`. -/
def ipKey (ip : String) : String := "ip:" ++ ip

/-- `click_tree.insert(k, v)`. -/
def setClick (st : DbState) (k : String) (v : ClickVal) : DbState :=
  { st with clicks := fun k2 => if k2 = k then some v else st.clicks k2 }

/-- `Database::get_week_count` (db.rs lines 55-67): read `current_week`,
return its `week_count`, defaulting to 0 when absent. -/
def get_week_count (st : DbState) : Except DbError Nat :=
  match st.week with
  | some (.ok data) => .ok data.week_count
  | some .bad => .error .bincode
  | none => .ok 0

/-- `Database::get_week_data` (db.rs lines 196-211): read `current_week`,
defaulting both fields when absent. -/
def get_week_data (st : DbState) : Except DbError WeekData :=
  match st.week with
  | some (.ok data) => .ok data
  | some .bad => .error .bincode
  | none => .ok { week_count := 0, last_click_time := none }

/-- `Database::increment_week` (db.rs lines 143-193): the transaction reads
`current_week` (defaulting to `WeekData { 0, None }`), does `week_count += 1`
leaving `last_click_time` as it was, writes the record back and returns the
new `week_count`. A corrupt stored record aborts the transaction with
`sled::Error::Unsupported`, surfaced as `DbError::Sled`. -/
def increment_week (st : DbState) : Except DbError Nat × DbState :=
  match st.week with
  | some .bad => (.error .sled, st)
  | some (.ok data) =>
    let d2 : WeekData :=
      { week_count := u64succ data.week_count,
        last_click_time := data.last_click_time }
    (.ok d2.week_count, { st with week := some (.ok d2) })
  | none =>
    let d2 : WeekData := { week_count := u64succ 0, last_click_time := none }
    (.ok d2.week_count, { st with week := some (.ok d2) })

/-- db.rs lines 95-131: the `week_tree.transaction` closure of
`increment_week_with_ip_check`. Same read-modify-write as `increment_week`,
but additionally `data.last_click_time = Some(now)`. Returns the new
`week_count`. -/
def txIncrementWithTime (now : Time) (st : DbState) :
    Except DbError (Nat × DbState) :=
  match st.week with
  | some .bad => .error .sled
  | some (.ok data) =>
    let d2 : WeekData :=
      { week_count := u64succ data.week_count, last_click_time := some now }
    .ok (d2.week_count, { st with week := some (.ok d2) })
  | none =>
    let d2 : WeekData := { week_count := u64succ 0, last_click_time := some now }
    .ok (d2.week_count, { st with week := some (.ok d2) })

/-- db.rs lines 94-136: what `increment_week_with_ip_check` does once the
daily-dedup check has passed: run the counter transaction, then
`click_tree.insert(ip_key, now.to_rfc3339())?` (whose failure, switched by
`insertOk`, propagates as an error while the committed transaction stands),
then return `Ok(new_week_count > 0)`. -/
def afterIpCheck (now : Time) (ip : String) (insertOk : Bool) (st : DbState) :
    Except DbError Bool × DbState :=
  match txIncrementWithTime now st with
  | .error e => (.error e, st)
  | .ok (newCount, st2) =>
    if insertOk then
      (.ok (decide (0 < newCount)), setClick st2 (ipKey ip) (.ok now))
    else (.error .sled, st2)

/-- `Database::increment_week_with_ip_check` (db.rs lines 71-139): look up
`"ip:{ip}"` in `click_tree`; on present bytes, `str::from_utf8` and
`parse_from_rfc3339` failures propagate (`?`) before anything is written;
if the stored instant has today's UTC calendar date, return `Ok(false)`
without writing; otherwise run the transaction-and-record phase. The single
timestamp `now` (captured once, line 74) is the argument used throughout. -/
def increment_week_with_ip_check (now : Time) (ip : String) (insertOk : Bool)
    (st : DbState) : Except DbError Bool × DbState :=
  match st.clicks (ipKey ip) with
  | some .badUtf8 => (.error .utf8, st)
  | some .badFormat => (.error .dateParse, st)
  | some (.ok prev) =>
    if dateNaive prev = dateNaive now then (.ok false, st)
    else afterIpCheck now ip insertOk st
  | none => afterIpCheck now ip insertOk st

/-- `Database::reset_weeks` (db.rs lines 214-223): `week_tree.remove` of
`current_week` (plus a flush, which does not change contents). -/
def reset_weeks (st : DbState) : Except DbError Unit × DbState :=
  (.ok (), { st with week := none })

/-! ### calculate_date_from_weeks (db.rs lines 236-243)

`calculate_date_from_weeks(weeks: u64)` computes
`DateTime::<Utc>::from_timestamp(1704067200, 0).unwrap() + Duration::weeks(weeks as i64)`.
Its two chrono calls can panic, which the model makes explicit as `none`:

  * `Duration::weeks(w)` is `w.checked_mul(604800).expect(..)` followed by
    `Duration::try_seconds(secs).expect(..)`; it panics when `w * 604800`
    overflows `i64` or when the seconds lie outside chrono `TimeDelta`
    bounds (`TimeDelta::MAX` is `i64::MAX` milliseconds, so whole seconds
    are limited to `|secs| <= i64::MAX / 1000 = 9223372036854775`).
  * `DateTime<Utc> + TimeDelta` is `checked_add_signed(..).expect(..)`; it
    panics when the result leaves the `NaiveDateTime` range, whose endpoints
    are `NaiveDate::MIN = -262144-01-01` and `NaiveDate::MAX = 262142-12-31`
    (at 23:59:59 on the last day, in whole seconds). -/

/-- Rust `weeks as i64` on a `u64` value: wrapping cast. -/
def u64AsI64 (n : Nat) : Int :=
  if n < 9223372036854775808 then (n : Int) else (n : Int) - 18446744073709551616

/-- Day number since 1970-01-01 of a proleptic-Gregorian civil date
(the standard days-from-civil computation, used to pin down chrono
`NaiveDate` range endpoints as timestamps). -/
def daysFromCivil (y m d : Int) : Int :=
  let yAdj := if m ≤ 2 then y - 1 else y
  let era := Int.fdiv yAdj 400
  let yoe := yAdj - era * 400
  let mp := if 2 < m then m - 3 else m + 9
  let doy := Int.fdiv (153 * mp + 2) 5 + d - 1
  let doe := yoe * 365 + Int.fdiv yoe 4 - Int.fdiv yoe 100 + doy
  era * 146097 + doe - 719468

/-- Smallest whole-second timestamp of a chrono `NaiveDateTime`
(`NaiveDate::MIN` = January 1, 262145 BCE, at midnight). -/
def minDateTimeSecs : Int := daysFromCivil (-262144) 1 1 * 86400

/-- Largest whole-second timestamp of a chrono `NaiveDateTime`
(`NaiveDate::MAX` = December 31, 262142 CE, at 23:59:59). -/
def maxDateTimeSecs : Int := daysFromCivil 262142 12 31 * 86400 + 86399

/-- chrono `Duration::weeks(w)` in whole seconds; `none` models its panics
(`checked_mul` overflow of `i64`, or seconds beyond `TimeDelta` bounds). -/
def durationWeeksSecs (w : Int) : Option Int :=
  if w * 604800 < -9223372036854775808 ∨ 9223372036854775808 ≤ w * 604800 then
    none
  else if w * 604800 < -9223372036854775 ∨ 9223372036854775 < w * 604800 then
    none
  else some (w * 604800)

/-- `calculate_date_from_weeks` (db.rs lines 236-243): the fixed epoch
1704067200 (2024-01-01 00:00:00 UTC) plus `Duration::weeks(weeks as i64)`;
`none` models a panic in `Duration::weeks` or in the `DateTime + Duration`
addition (result outside the `NaiveDateTime` range). -/
def calculate_date_from_weeks (weeks : Nat) : Option Time :=
  match durationWeeksSecs (u64AsI64 weeks) with
  | none => none
  | some secs =>
    if 1704067200 + secs < minDateTimeSecs ∨ maxDateTimeSecs < 1704067200 + secs
    then none
    else some (1704067200 + secs)

/-! ### Operation traces

A client-visible operation on the store, for stating trace invariants. The
set matches claim C5: the read operations, the unconditional increment, and
the conditional increment (`reset_weeks` is not among the listed operations). -/

/-- One store operation of a trace. -/
inductive Op
  | getCount
  | getData
  | incr
  | incrIp (now : Time) (ip : String) (insertOk : Bool)

/-- The state after one operation (reads leave the state unchanged). -/
def applyOp (st : DbState) (op : Op) : DbState :=
  match op with
  | .getCount => st
  | .getData => st
  | .incr => (increment_week st).2
  | .incrIp now ip insertOk => (increment_week_with_ip_check now ip insertOk st).2

/-- The state after a sequence of operations. -/
def runOps (st : DbState) (ops : List Op) : DbState := ops.foldl applyOp st

/-- The counter value held by a state (0 when the record is absent or its
bytes are corrupt, matching the operations' read of the record). -/
def stCount (st : DbState) : Nat :=
  match st.week with
  | some (.ok data) => data.week_count
  | _ => 0

/-- The stored last-increment instant of a state, when one is present. -/
def stLastTime (st : DbState) : Option Time :=
  match st.week with
  | some (.ok data) => data.last_click_time
  | _ => none

instance {ε α : Type} [DecidableEq ε] [DecidableEq α] :
    DecidableEq (Except ε α) := fun a b =>
  match a, b with
  | .error e1, .error e2 =>
    if h : e1 = e2 then .isTrue (by rw [h])
    else .isFalse (fun hc => h (by cases hc; rfl))
  | .ok x, .ok y =>
    if h : x = y then .isTrue (by rw [h])
    else .isFalse (fun hc => h (by cases hc; rfl))
  | .error _, .ok _ => .isFalse (fun hc => by cases hc)
  | .ok _, .error _ => .isFalse (fun hc => by cases hc)

/-! ### Helper lemmas -/

/-- A conditional increment whose stored record has the same UTC calendar
date as the call instant returns false and leaves the state untouched. -/
theorem ipcheck_same_day (now : Time) (ip : String) (insertOk : Bool)
    (st : DbState) (t0 : Time) (hc : st.clicks (ipKey ip) = some (.ok t0))
    (hd : dateNaive t0 = dateNaive now) :
    increment_week_with_ip_check now ip insertOk st = (.ok false, st) := by
  unfold increment_week_with_ip_check
  rw [hc]
  simp [hd]

/-- When the dedup check passes (no stored record, or a record from a
different UTC calendar date), the conditional increment proceeds to the
transaction-and-record phase. -/
theorem ipcheck_pass (now : Time) (ip : String) (insertOk : Bool)
    (st : DbState)
    (h : st.clicks (ipKey ip) = none ∨
         ∃ t0, st.clicks (ipKey ip) = some (.ok t0) ∧
           dateNaive t0 ≠ dateNaive now) :
    increment_week_with_ip_check now ip insertOk st =
      afterIpCheck now ip insertOk st := by
  unfold increment_week_with_ip_check
  rcases h with h | ⟨t0, h, hd⟩ <;> rw [h]
  simp [hd]

/-- Shape of the transaction-and-record phase when the stored counter bytes
are not corrupt and the identity-record insert succeeds. -/
theorem afterIpCheck_ok (now : Time) (ip : String) (st : DbState)
    (h : st.week ≠ some WeekVal.bad) :
    afterIpCheck now ip true st =
      (.ok (decide (0 < u64succ (stCount st))),
       setClick
         { st with week := some (.ok { week_count := u64succ (stCount st),
                                       last_click_time := some now }) }
         (ipKey ip) (.ok now)) := by
  cases hw : st.week with
  | none => simp [afterIpCheck, txIncrementWithTime, hw, stCount]
  | some v =>
    cases v with
    | ok data => simp [afterIpCheck, txIncrementWithTime, hw, stCount]
    | bad => exact absurd hw h

/-- Shape of the transaction-and-record phase when the stored counter bytes
are not corrupt and the identity-record insert fails: the committed counter
stands, the error propagates. -/
theorem afterIpCheck_insert_fails (now : Time) (ip : String) (st : DbState)
    (h : st.week ≠ some WeekVal.bad) :
    afterIpCheck now ip false st =
      (.error .sled,
       { st with week := some (.ok { week_count := u64succ (stCount st),
                                     last_click_time := some now }) }) := by
  cases hw : st.week with
  | none => simp [afterIpCheck, txIncrementWithTime, hw, stCount]
  | some v =>
    cases v with
    | ok data => simp [afterIpCheck, txIncrementWithTime, hw, stCount]
    | bad => exact absurd hw h

/-- The counter value after writing back a fresh counter record and an
identity record. -/
theorem stCount_setClick_week (st : DbState) (k : String) (v : ClickVal)
    (d : WeekData) :
    stCount (setClick { st with week := some (.ok d) } k v) = d.week_count :=
  rfl

/-! ### Claim theorems -/

/-- Claim C6: after any sequence of operations — that is, in every store
state — `get_week_count` equals the `week_count` field of `get_week_data`
(they reach the same `Except` outcome); when the counter record is absent,
`get_week_count` returns 0 and `get_week_data` returns the defaulted record
with count 0 and no timestamp. -/
theorem getCount_eq_getData_count (st : DbState) :
    get_week_count st = (get_week_data st).map WeekData.week_count ∧
    (st.week = none →
      get_week_count st = .ok 0 ∧
      get_week_data st = .ok { week_count := 0, last_click_time := none }) := by
  constructor
  · cases h : st.week with
    | none => simp [get_week_count, get_week_data, h, Except.map]
    | some v =>
      cases v <;> simp [get_week_count, get_week_data, h, Except.map]
  · intro h
    simp [get_week_count, get_week_data, h]

/-- Witness for C6 at the empty store. -/
theorem getCount_eq_getData_count_witness :
    get_week_count initSt = .ok 0 ∧
    get_week_data initSt = .ok { week_count := 0, last_click_time := none } :=
  (getCount_eq_getData_count initSt).2 rfl

/-- Claim C7: `reset_weeks` removes only the counter record — the clicks
tree is carried over unchanged — and reading the count afterwards yields 0,
from every prior state. -/
theorem reset_deletes_only_counter (st : DbState) :
    reset_weeks st = (.ok (), { week := none, clicks := st.clicks }) ∧
    get_week_count (reset_weeks st).2 = .ok 0 :=
  ⟨rfl, rfl⟩

/-- Counterexample to claim C4 as stated: on the stored state with
`week_count = 2^64 - 1` (a valid u64), `increment_week` returns count 0 —
the release-profile `week_count += 1` wraps — which is not the old count
plus one. -/
theorem increment_week_wrap_cex :
    (increment_week
      { week := some (.ok { week_count := 18446744073709551615,
                            last_click_time := none }),
        clicks := fun _ => none }).1 = .ok 0 ∧
    (0 : Nat) ≠ 18446744073709551615 + 1 := by
  constructor
  · rfl
  · decide

/-- Claim C4 (amended): for every stored counter state, `increment_week`
sets the count to the old count plus 1 modulo 2^64 — exactly plus 1 for
every count below `u64::MAX`, wrapping to 0 at `u64::MAX` — leaves
`last_click_time` exactly as it was (absent stays absent, a present instant
keeps its value), and returns the new count; an absent record behaves as
count 0 with absent timestamp. -/
theorem increment_week_effect (st : DbState) (data : WeekData) :
    (st.week = some (.ok data) →
      increment_week st =
        (.ok (u64succ data.week_count),
         { st with week := some (.ok { week_count := u64succ data.week_count,
                                       last_click_time := data.last_click_time }) })) ∧
    (st.week = none →
      increment_week st =
        (.ok 1,
         { st with week := some (.ok { week_count := 1,
                                       last_click_time := none }) })) := by
  constructor
  · intro h
    simp [increment_week, h]
  · intro h
    simp [increment_week, h]
    decide

/-- Witness for the amended C4 on a concrete stored record. -/
theorem increment_week_effect_witness :
    increment_week
        { week := some (.ok { week_count := 5, last_click_time := some 100 }),
          clicks := fun _ => none } =
      (.ok (u64succ 5),
       { week := some (.ok { week_count := u64succ 5,
                             last_click_time := some 100 }),
         clicks := fun _ => none }) :=
  (increment_week_effect
    { week := some (.ok { week_count := 5, last_click_time := some 100 }),
      clicks := fun _ => none }
    { week_count := 5, last_click_time := some 100 }).1 rfl

/-- Claim C3: the code, not the claim, is at fault. At `weeks = 20000000`
the target instant (epoch + 20000000 weeks) lies beyond chrono's maximal
`NaiveDateTime`, so the `DateTime + Duration` addition inside
`calculate_date_from_weeks` panics (`checked_add_signed(..).expect`), which
the model renders as `none`; for still larger inputs (for example 10^17)
already `Duration::weeks` panics on `i64` overflow. The function neither
saturates nor returns: it crashes. -/
theorem calculate_date_overflow_panics :
    calculate_date_from_weeks 20000000 = none ∧
    calculate_date_from_weeks 100000000000000000 = none := by
  constructor
  · decide
  · decide

/-- Counterexample to claim C8 as stated: at `weeks = 10^17` the result is
not the epoch plus `weeks * 604800` seconds — the computation panics
(modelled `none`) in `Duration::weeks`. -/
theorem calculate_date_formula_cex :
    calculate_date_from_weeks 100000000000000000 = none ∧
    calculate_date_from_weeks 100000000000000000 ≠
      some (1704067200 + (100000000000000000 : Int) * 604800) := by
  constructor
  · decide
  · decide

/-- Claim C8 (amended): `calculate_date_from_weeks 0` is the fixed epoch
instant 1704067200 (2024-01-01 00:00:00 UTC) and `calculate_date_from_weeks
1` is that instant plus exactly 604800 seconds; in general, for every
`weeks` whose target instant stays within chrono's representable
`DateTime<Utc>` range, the result is the epoch plus `weeks * 604800`
seconds (outside that range the function panics instead). -/
theorem calculate_date_formula (weeks : Nat)
    (h : (weeks : Int) * 604800 + 1704067200 ≤ maxDateTimeSecs) :
    calculate_date_from_weeks weeks =
      some (1704067200 + (weeks : Int) * 604800) := by
  have hmax : maxDateTimeSecs = 8210266876799 := by decide
  have hmin : minDateTimeSecs = -8334632851200 := by decide
  rw [hmax] at h
  have hw : weeks < 9223372036854775808 := by omega
  have hcast : u64AsI64 weeks = (weeks : Int) := by
    unfold u64AsI64
    rw [if_pos hw]
  have hdur : durationWeeksSecs ((weeks : Int)) =
      some ((weeks : Int) * 604800) := by
    unfold durationWeeksSecs
    rw [if_neg (by push_neg; omega), if_neg (by push_neg; omega)]
  unfold calculate_date_from_weeks
  rw [hcast, hdur]
  simp only [hmin, hmax]
  rw [if_neg (by push_neg; omega)]

/-- Witness for the amended C8 at weeks 0 and 1. -/
theorem calculate_date_formula_witness :
    calculate_date_from_weeks 0 = some (1704067200 + (0 : Int) * 604800) ∧
    calculate_date_from_weeks 1 = some (1704067200 + (1 : Int) * 604800) :=
  ⟨calculate_date_formula 0 (by decide), calculate_date_formula 1 (by decide)⟩

/-- Counterexample to claim C2 as stated: from the (valid u64) stored count
2^64 - 2, an accepted first call and a deduplicated second call on day 0
leave the count at 2^64 - 1, but the accepted call on the following UTC
calendar day wraps the count to 0 — not "exactly one more". -/
theorem daily_dedup_wrap_cex :
    stCount ((increment_week_with_ip_check 1 "a" true
        ((increment_week_with_ip_check 0 "a" true
          { week := some (.ok { week_count := 18446744073709551614,
                                last_click_time := none }),
            clicks := fun _ => none }).2)).2) = 18446744073709551615 ∧
    stCount ((increment_week_with_ip_check 86400 "a" true
        ((increment_week_with_ip_check 1 "a" true
          ((increment_week_with_ip_check 0 "a" true
            { week := some (.ok { week_count := 18446744073709551614,
                                  last_click_time := none }),
              clicks := fun _ => none }).2)).2)).2) = 0 := by
  constructor
  · decide
  · decide

/-- Claim C2 (amended): a conditional increment that finds a stored record
of the same UTC calendar date returns false and changes nothing; starting
from a state whose record for the identity is absent or from a different
calendar date, the first call increments the count (by 1 mod 2^64), a
second call on the same calendar date returns false and leaves the store
exactly as it was (at most one count change), and a call on the following
calendar date performs exactly one more increment (again mod 2^64). -/
theorem daily_dedup (st : DbState) (ip : String) (now1 now2 now3 : Time)
    (hcl : st.clicks (ipKey ip) = none ∨
           ∃ t0, st.clicks (ipKey ip) = some (.ok t0) ∧
             dateNaive t0 ≠ dateNaive now1)
    (hw : st.week ≠ some WeekVal.bad)
    (h12 : dateNaive now2 = dateNaive now1)
    (h13 : dateNaive now3 = dateNaive now1 + 1) :
    (∀ (s : DbState) (t0 n : Time) (b : Bool),
        s.clicks (ipKey ip) = some (.ok t0) → dateNaive t0 = dateNaive n →
        increment_week_with_ip_check n ip b s = (.ok false, s)) ∧
    stCount (increment_week_with_ip_check now1 ip true st).2 =
      u64succ (stCount st) ∧
    increment_week_with_ip_check now2 ip true
        (increment_week_with_ip_check now1 ip true st).2 =
      (.ok false, (increment_week_with_ip_check now1 ip true st).2) ∧
    stCount (increment_week_with_ip_check now3 ip true
        (increment_week_with_ip_check now2 ip true
          (increment_week_with_ip_check now1 ip true st).2).2).2 =
      u64succ (u64succ (stCount st)) := by
  have hsame : ∀ (s : DbState) (t0 n : Time) (b : Bool),
      s.clicks (ipKey ip) = some (.ok t0) → dateNaive t0 = dateNaive n →
      increment_week_with_ip_check n ip b s = (.ok false, s) :=
    fun s t0 n b hc hd => ipcheck_same_day n ip b s t0 hc hd
  have h1 : increment_week_with_ip_check now1 ip true st =
      (.ok (decide (0 < u64succ (stCount st))),
       setClick
         { st with week := some (.ok { week_count := u64succ (stCount st),
                                       last_click_time := some now1 }) }
         (ipKey ip) (.ok now1)) := by
    rw [ipcheck_pass now1 ip true st hcl, afterIpCheck_ok now1 ip st hw]
  have hs1clicks :
      (increment_week_with_ip_check now1 ip true st).2.clicks (ipKey ip) =
        some (.ok now1) := by
    rw [h1]
    simp [setClick]
  have hs1week : (increment_week_with_ip_check now1 ip true st).2.week =
      some (.ok { week_count := u64succ (stCount st),
                  last_click_time := some now1 }) := by
    rw [h1]
    rfl
  have hcount1 : stCount (increment_week_with_ip_check now1 ip true st).2 =
      u64succ (stCount st) := by
    rw [stCount, hs1week]
  have h2 : increment_week_with_ip_check now2 ip true
      (increment_week_with_ip_check now1 ip true st).2 =
      (.ok false, (increment_week_with_ip_check now1 ip true st).2) :=
    hsame _ now1 now2 true hs1clicks h12.symm
  refine ⟨hsame, hcount1, h2, ?_⟩
  have hs2 : (increment_week_with_ip_check now2 ip true
      (increment_week_with_ip_check now1 ip true st).2).2 =
      (increment_week_with_ip_check now1 ip true st).2 := by
    rw [h2]
  rw [hs2]
  have hw1 : (increment_week_with_ip_check now1 ip true st).2.week ≠
      some WeekVal.bad := by
    rw [hs1week]
    simp
  rw [ipcheck_pass now3 ip true _ (Or.inr ⟨now1, hs1clicks, by omega⟩),
      afterIpCheck_ok now3 ip _ hw1]
  show stCount (setClick _ _ _) = _
  rw [stCount_setClick_week]
  simp [hcount1]

/-- Witness for the amended C2: identity "a" against the empty store, with
calls at instants 0 and 3600 (same UTC day) and 86400 (the next UTC day). -/
theorem daily_dedup_witness :
    (∀ (s : DbState) (t0 n : Time) (b : Bool),
        s.clicks (ipKey "a") = some (.ok t0) → dateNaive t0 = dateNaive n →
        increment_week_with_ip_check n "a" b s = (.ok false, s)) ∧
    stCount (increment_week_with_ip_check 0 "a" true initSt).2 =
      u64succ (stCount initSt) ∧
    increment_week_with_ip_check 3600 "a" true
        (increment_week_with_ip_check 0 "a" true initSt).2 =
      (.ok false, (increment_week_with_ip_check 0 "a" true initSt).2) ∧
    stCount (increment_week_with_ip_check 86400 "a" true
        (increment_week_with_ip_check 3600 "a" true
          (increment_week_with_ip_check 0 "a" true initSt).2).2).2 =
      u64succ (u64succ (stCount initSt)) :=
  daily_dedup initSt "a" 0 3600 86400 (Or.inl rfl) (by decide) (by decide)
    (by decide)

/-- Claim C9: one instant, captured once at the start of the call, is used
for both writes of an accepted conditional increment: the committed counter
record's `last_click_time` and the identity record both hold exactly the
call instant `now`. -/
theorem single_timestamp (now : Time) (ip : String) (st : DbState)
    (hcl : st.clicks (ipKey ip) = none ∨
           ∃ t0, st.clicks (ipKey ip) = some (.ok t0) ∧
             dateNaive t0 ≠ dateNaive now)
    (hw : st.week ≠ some WeekVal.bad) :
    (increment_week_with_ip_check now ip true st).2.week =
      some (.ok { week_count := u64succ (stCount st),
                  last_click_time := some now }) ∧
    (increment_week_with_ip_check now ip true st).2.clicks (ipKey ip) =
      some (.ok now) := by
  rw [ipcheck_pass now ip true st hcl, afterIpCheck_ok now ip st hw]
  constructor
  · rfl
  · simp [setClick]

/-- Witness for C9 at the empty store, identity "a", instant 42. -/
theorem single_timestamp_witness :
    (increment_week_with_ip_check 42 "a" true initSt).2.week =
      some (.ok { week_count := u64succ (stCount initSt),
                  last_click_time := some 42 }) ∧
    (increment_week_with_ip_check 42 "a" true initSt).2.clicks (ipKey "a") =
      some (.ok 42) :=
  single_timestamp 42 "a" initSt (Or.inl rfl) (by decide)

/-- Claim C10: when the identity's stored bytes are not valid UTF-8 or do
not parse as RFC 3339, the conditional increment returns the corresponding
error (`DbError::Utf8` or `DbError::DateParse`) and the whole store — the
counter record and every identity record — is exactly as before: the error
is raised before the counter transaction is reached. -/
theorem corrupt_identity_record_error (now : Time) (ip : String)
    (insertOk : Bool) (st : DbState)
    (h : st.clicks (ipKey ip) = some .badUtf8 ∨
         st.clicks (ipKey ip) = some .badFormat) :
    ((increment_week_with_ip_check now ip insertOk st).1 = .error .utf8 ∨
     (increment_week_with_ip_check now ip insertOk st).1 =
       .error .dateParse) ∧
    (increment_week_with_ip_check now ip insertOk st).2 = st := by
  rcases h with h | h <;> simp [increment_week_with_ip_check, h]

/-- Witness for C10 on a store whose record for identity "a" is not valid
UTF-8. -/
theorem corrupt_identity_record_error_witness :
    ((increment_week_with_ip_check 0 "a" true
        { week := none,
          clicks := fun k => if k = ipKey "a" then some .badUtf8
                             else none }).1 = .error .utf8 ∨
     (increment_week_with_ip_check 0 "a" true
        { week := none,
          clicks := fun k => if k = ipKey "a" then some .badUtf8
                             else none }).1 = .error .dateParse) ∧
    (increment_week_with_ip_check 0 "a" true
        { week := none,
          clicks := fun k => if k = ipKey "a" then some .badUtf8
                             else none }).2 =
      { week := none,
        clicks := fun k => if k = ipKey "a" then some .badUtf8 else none } :=
  corrupt_identity_record_error 0 "a" true
    { week := none,
      clicks := fun k => if k = ipKey "a" then some .badUtf8 else none }
    (Or.inl (by simp))

/-- Counterexample to claim C1 as stated: on the empty store, with the
identity-record insert failing, the counter transaction commits (the count
becomes 1) and yet the call returns `DbError::Sled` — the `?` on the
`click_tree.insert` line propagates the failure — not `true`. -/
theorem insert_failure_cex :
    (increment_week_with_ip_check 0 "a" false initSt).1 = .error .sled ∧
    (increment_week_with_ip_check 0 "a" false initSt).1 ≠ .ok true ∧
    stCount (increment_week_with_ip_check 0 "a" false initSt).2 = 1 := by
  refine ⟨rfl, ?_, rfl⟩
  decide

/-- Claim C1 (amended): once the counter transaction has committed, the
call returns `true` provided the identity-record write also succeeds (and
the new count is nonzero, which the code tests as `new_week_count > 0`);
when the identity-record write fails, the committed counter increment is
retained — the count still advances, so the failure degrades to possible
double counting, not data corruption — but the call surfaces the storage
error to the caller instead of returning `true`. -/
theorem returns_true_after_commit (now : Time) (ip : String) (st : DbState)
    (hcl : st.clicks (ipKey ip) = none ∨
           ∃ t0, st.clicks (ipKey ip) = some (.ok t0) ∧
             dateNaive t0 ≠ dateNaive now)
    (hw : st.week ≠ some WeekVal.bad)
    (hpos : 0 < u64succ (stCount st)) :
    (increment_week_with_ip_check now ip true st).1 = .ok true ∧
    (increment_week_with_ip_check now ip false st).1 = .error .sled ∧
    stCount (increment_week_with_ip_check now ip false st).2 =
      u64succ (stCount st) := by
  refine ⟨?_, ?_, ?_⟩
  · rw [ipcheck_pass now ip true st hcl, afterIpCheck_ok now ip st hw]
    simp [hpos]
  · rw [ipcheck_pass now ip false st hcl,
        afterIpCheck_insert_fails now ip st hw]
  · rw [ipcheck_pass now ip false st hcl,
        afterIpCheck_insert_fails now ip st hw]
    simp [stCount]

/-- Witness for the amended C1 at the empty store, identity "a", instant 7. -/
theorem returns_true_after_commit_witness :
    (increment_week_with_ip_check 7 "a" true initSt).1 = .ok true ∧
    (increment_week_with_ip_check 7 "a" false initSt).1 = .error .sled ∧
    stCount (increment_week_with_ip_check 7 "a" false initSt).2 =
      u64succ (stCount initSt) :=
  returns_true_after_commit 7 "a" initSt (Or.inl rfl) (by decide) (by decide)

/-! ### Trace lemmas for claim C5 -/

/-- Running a concatenated trace runs the two parts in order. -/
theorem runOps_append (st : DbState) (l1 l2 : List Op) :
    runOps st (l1 ++ l2) = runOps (runOps st l1) l2 := by
  simp [runOps, List.foldl_append]

/-- Effect of `n` unconditional increments on a valid stored record: the
count advances by `n` modulo 2^64 and nothing else changes. -/
theorem incr_replicate (clicks : String → Option ClickVal) (c : Nat)
    (lt : Option Time) (n : Nat) (h : c < U64) :
    runOps
        { week := some (.ok { week_count := c, last_click_time := lt }),
          clicks := clicks }
        (List.replicate n Op.incr) =
      { week := some (.ok { week_count := (c + n) % U64,
                            last_click_time := lt }),
        clicks := clicks } := by
  induction n generalizing c with
  | zero =>
    simp [runOps, Nat.mod_eq_of_lt h]
  | succ n ih =>
    rw [List.replicate_succ]
    unfold runOps
    rw [List.foldl_cons]
    have ha : applyOp
        { week := some (.ok { week_count := c, last_click_time := lt }),
          clicks := clicks } Op.incr =
        { week := some (.ok { week_count := u64succ c,
                              last_click_time := lt }),
          clicks := clicks } := rfl
    rw [ha]
    have hlt : u64succ c < U64 := Nat.mod_lt _ (by decide)
    have ihb := ih (u64succ c) hlt
    unfold runOps at ihb
    rw [ihb]
    have harith : (u64succ c + n) % U64 = (c + (n + 1)) % U64 := by
      unfold u64succ U64
      omega
    rw [harith]

/-- Counterexample to claim C5 as stated: the state reached from the empty
store by 2^64 - 1 accepted unconditional increments holds count 2^64 - 1,
and the next accepted unconditional increment takes the count to 0 — the
count decreases (u64 wraparound), so along this operation sequence it is
neither non-decreasing nor always old count plus 1. -/
theorem count_wrap_reachable_cex :
    stCount (runOps initSt
        (List.replicate 18446744073709551615 Op.incr)) =
      18446744073709551615 ∧
    stCount (runOps initSt
        (List.replicate 18446744073709551615 Op.incr ++ [Op.incr])) = 0 := by
  have h1 : runOps initSt (List.replicate 18446744073709551615 Op.incr) =
      { week := some (.ok { week_count := 18446744073709551615,
                            last_click_time := none }),
        clicks := fun _ => none } := by
    have hsplit : List.replicate 18446744073709551615 Op.incr =
        Op.incr :: List.replicate 18446744073709551614 Op.incr := by
      rw [show (18446744073709551615 : Nat) = 18446744073709551614 + 1
            by norm_num,
          List.replicate_succ]
    rw [hsplit]
    unfold runOps
    rw [List.foldl_cons]
    have ha : applyOp initSt Op.incr =
        { week := some (.ok { week_count := u64succ 0,
                              last_click_time := none }),
          clicks := fun _ => none } := rfl
    rw [ha]
    have hone : u64succ 0 = 1 := by decide
    rw [hone]
    have ihb := incr_replicate (fun _ => none) 1 none 18446744073709551614
      (by decide)
    unfold runOps at ihb
    rw [ihb]
    have : (1 + 18446744073709551614) % U64 = 18446744073709551615 := by
      decide
    rw [this]
  constructor
  · rw [h1]
    rfl
  · rw [runOps_append, h1]
    rfl

/-- Single-step shape of the transaction-and-record phase, for the C5
invariant: the count either stays (transaction aborted on corrupt stored
bytes) or advances by one step of u64 arithmetic, and the last-increment
instant moves to the call instant, which is not earlier than any stored
instant by the clock hypothesis. -/
theorem afterIpCheck_step (now : Time) (ip : String) (b : Bool)
    (st : DbState) (hc : ∀ t, stLastTime st = some t → t ≤ now) :
    (stCount (afterIpCheck now ip b st).2 = stCount st ∨
     stCount (afterIpCheck now ip b st).2 = u64succ (stCount st)) ∧
    (∀ t t2, stLastTime st = some t →
      stLastTime (afterIpCheck now ip b st).2 = some t2 → t ≤ t2) := by
  by_cases hw : st.week = some WeekVal.bad
  · have heq : afterIpCheck now ip b st = (.error .sled, st) := by
      simp [afterIpCheck, txIncrementWithTime, hw]
    rw [heq]
    exact ⟨Or.inl rfl, fun t t2 h1 h2 =>
      le_of_eq (Option.some_injective _ (h1.symm.trans h2))⟩
  · cases b with
    | true =>
      rw [afterIpCheck_ok now ip st hw]
      refine ⟨Or.inr rfl, fun t t2 h1 h2 => ?_⟩
      have h2b : some now = some t2 := h2
      rw [← Option.some_injective _ h2b]
      exact hc t h1
    | false =>
      rw [afterIpCheck_insert_fails now ip st hw]
      refine ⟨Or.inr rfl, fun t t2 h1 h2 => ?_⟩
      have h2b : some now = some t2 := h2
      rw [← Option.some_injective _ h2b]
      exact hc t h1

/-- Single-step C5 invariant for the unconditional increment: the count
either stays (corrupt stored bytes abort the transaction) or advances by
one u64 step, and the stored instant is carried over unchanged. -/
theorem increment_week_step (st : DbState) :
    (stCount (increment_week st).2 = stCount st ∨
     stCount (increment_week st).2 = u64succ (stCount st)) ∧
    (∀ t t2, stLastTime st = some t →
      stLastTime (increment_week st).2 = some t2 → t ≤ t2) := by
  cases hw : st.week with
  | none =>
    have heq : (increment_week st).2 =
        { st with week := some (.ok { week_count := u64succ 0,
                                      last_click_time := none }) } := by
      simp [increment_week, hw]
    rw [heq]
    refine ⟨Or.inr (by simp [stCount, hw]), fun t t2 h1 h2 => ?_⟩
    exact absurd h1 (by simp [stLastTime, hw])
  | some v =>
    cases v with
    | bad =>
      have heq : (increment_week st).2 = st := by
        simp [increment_week, hw]
      rw [heq]
      exact ⟨Or.inl rfl, fun t t2 h1 h2 =>
        le_of_eq (Option.some_injective _ (h1.symm.trans h2))⟩
    | ok data =>
      have heq : (increment_week st).2 =
          { st with week := some (.ok
              { week_count := u64succ data.week_count,
                last_click_time := data.last_click_time }) } := by
        simp [increment_week, hw]
      rw [heq]
      refine ⟨Or.inr (by simp [stCount, hw]), fun t t2 h1 h2 => ?_⟩
      have hst : stLastTime st = data.last_click_time := by
        simp [stLastTime, hw]
      have h2b : data.last_click_time = some t2 := h2
      rw [hst] at h1
      exact le_of_eq (Option.some_injective _ (h1.symm.trans h2b))

/-- Single-step C5 invariant for the conditional increment, under the
clock hypothesis that the call instant is not earlier than the stored
last-increment instant. -/
theorem ipcheck_step (now : Time) (ip : String) (b : Bool) (st : DbState)
    (hc : ∀ t, stLastTime st = some t → t ≤ now) :
    (stCount (increment_week_with_ip_check now ip b st).2 = stCount st ∨
     stCount (increment_week_with_ip_check now ip b st).2 =
       u64succ (stCount st)) ∧
    (∀ t t2, stLastTime st = some t →
      stLastTime (increment_week_with_ip_check now ip b st).2 = some t2 →
      t ≤ t2) := by
  cases hcl : st.clicks (ipKey ip) with
  | none =>
    rw [ipcheck_pass now ip b st (Or.inl hcl)]
    exact afterIpCheck_step now ip b st hc
  | some v =>
    cases v with
    | badUtf8 =>
      have heq : increment_week_with_ip_check now ip b st =
          (.error .utf8, st) := by
        unfold increment_week_with_ip_check
        rw [hcl]
      rw [heq]
      exact ⟨Or.inl rfl, fun t t2 h1 h2 =>
        le_of_eq (Option.some_injective _ (h1.symm.trans h2))⟩
    | badFormat =>
      have heq : increment_week_with_ip_check now ip b st =
          (.error .dateParse, st) := by
        unfold increment_week_with_ip_check
        rw [hcl]
      rw [heq]
      exact ⟨Or.inl rfl, fun t t2 h1 h2 =>
        le_of_eq (Option.some_injective _ (h1.symm.trans h2))⟩
    | ok t0 =>
      by_cases hd : dateNaive t0 = dateNaive now
      · rw [ipcheck_same_day now ip b st t0 hcl hd]
        exact ⟨Or.inl rfl, fun t t2 h1 h2 =>
          le_of_eq (Option.some_injective _ (h1.symm.trans h2))⟩
      · rw [ipcheck_pass now ip b st (Or.inr ⟨t0, hcl, hd⟩)]
        exact afterIpCheck_step now ip b st hc

/-- Claim C5 (amended): along any sequence of the listed operations (reads,
unconditional increment, conditional increment), every step either leaves
the count unchanged or sets it to the old count plus 1 modulo 2^64 — in
particular the count never decreases except at the single wraparound step
from 2^64 - 1 to 0 — and the stored last-increment instant, when present
before and after a step, never decreases, provided the clock instant handed
to a conditional increment is never earlier than the stored instant. -/
theorem count_time_step_invariant (st : DbState) (op : Op)
    (hclock : ∀ now ip b, op = Op.incrIp now ip b →
      ∀ t, stLastTime st = some t → t ≤ now) :
    (stCount (applyOp st op) = stCount st ∨
     stCount (applyOp st op) = u64succ (stCount st)) ∧
    (∀ t t2, stLastTime st = some t → stLastTime (applyOp st op) = some t2 →
      t ≤ t2) := by
  cases op with
  | getCount =>
    exact ⟨Or.inl rfl, fun t t2 h1 h2 =>
      le_of_eq (Option.some_injective _ (h1.symm.trans h2))⟩
  | getData =>
    exact ⟨Or.inl rfl, fun t t2 h1 h2 =>
      le_of_eq (Option.some_injective _ (h1.symm.trans h2))⟩
  | incr =>
    exact increment_week_step st
  | incrIp now ip b =>
    exact ipcheck_step now ip b st (fun t ht => hclock now ip b rfl t ht)

/-- Witness for the amended C5: a conditional increment at instant 10 on a
store whose record holds count 3 and last-increment instant 5. -/
theorem count_time_step_invariant_witness :
    (stCount (applyOp
        { week := some (.ok { week_count := 3, last_click_time := some 5 }),
          clicks := fun _ => none } (Op.incrIp 10 "a" true)) =
      stCount
        { week := some (.ok { week_count := 3, last_click_time := some 5 }),
          clicks := fun _ => none } ∨
     stCount (applyOp
        { week := some (.ok { week_count := 3, last_click_time := some 5 }),
          clicks := fun _ => none } (Op.incrIp 10 "a" true)) =
      u64succ (stCount
        { week := some (.ok { week_count := 3, last_click_time := some 5 }),
          clicks := fun _ => none })) ∧
    (∀ t t2, stLastTime
        { week := some (.ok { week_count := 3, last_click_time := some 5 }),
          clicks := fun _ => none } = some t →
      stLastTime (applyOp
        { week := some (.ok { week_count := 3, last_click_time := some 5 }),
          clicks := fun _ => none } (Op.incrIp 10 "a" true)) = some t2 →
      t ≤ t2) :=
  count_time_step_invariant
    { week := some (.ok { week_count := 3, last_click_time := some 5 }),
      clicks := fun _ => none }
    (Op.incrIp 10 "a" true)
    (by
      intro now ip b h t ht
      cases h
      have h5 : some (5 : Time) = some t := ht
      rw [← Option.some_injective _ h5]
      decide)
